import Mathlib

/-!
Verification development for the Orbit_Skill training-management backend.

The definitions below are a shallow embedding of the Python source:

* section 1: helpers capturing the Python semantics the code relies on
  (truthiness, str.strip/str.lower, substring containment, dict.get,
  list indexing with negative indices);
* section 2: the column resolver of backend/app/excel_loader.py
  (clean_headers, find_column_flexible);
* section 3: an exact rational model of the IEEE-754 binary64 arithmetic in
  the score computation of submit_assignment;
* section 4: the grading loop of submit_assignment in
  backend/app/routes/shared_content_routes.py;
* section 5: the retrieval endpoints get_shared_assignment and
  get_assignment_result of the same file;
* section 6: the bulk loaders load_all_from_excel and
  load_manager_employee_from_csv of backend/app/excel_loader.py, over an
  explicit committed/current session model.

Theorems about the claims follow after all definitions.
-/

set_option maxHeartbeats 1000000

deriving instance DecidableEq for Except

namespace OrbitSkill

/-! ### Section 1: Python semantics helpers -/

/-- A pandas cell after the NaN-to-None replacement: Python None or a string value. -/
abbrev Cell := Option String

/-- A data row keyed by column header, headers in column order
(Python dicts preserve insertion order). -/
abbrev Row := List (String × Cell)

/-- Python truthiness of a cell: None and the empty string are falsy. -/
def pyTruthy : Cell → Bool
  | none => false
  | some s => s != ""

/-- Python a or b on cells: the first operand when truthy, otherwise the second. -/
def pyOr (a b : Cell) : Cell := if pyTruthy a then a else b

/-- Python str.lower (the headers and values handled here are ASCII). -/
def toLowerStr (s : String) : String := String.mk (s.data.map Char.toLower)

/-- Whitespace characters removed by Python str.strip. -/
def isSpaceChar (c : Char) : Bool := c = ' ' || c = '\t' || c = '\n' || c = '\r'

/-- Python str.strip: remove surrounding whitespace. -/
def trimStr (s : String) : String :=
  String.mk (((s.data.dropWhile isSpaceChar).reverse.dropWhile isSpaceChar).reverse)

/-- Models the pattern value.strip() applied when the cell holds a truthy string;
stripping an empty string is the identity, so this is plain Option.map. -/
def pyStrip (v : Cell) : Cell := v.map trimStr

/-- Python dict .get with default None on a row. -/
def rowGet (row : Row) (k : String) : Cell := (row.lookup k).getD none

/-- Python list indexing: nonnegative indices from the front, negative indices from
the back, none for an IndexError. -/
def pyGetElem {α : Type} (xs : List α) (i : Int) : Option α :=
  if 0 ≤ i then xs[i.toNat]?
  else if 0 ≤ i + xs.length then xs[(i + xs.length).toNat]?
  else none

/-- The needle list is a prefix of the haystack list. -/
def charsPre : List Char → List Char → Bool
  | [], _ => true
  | _ :: _, [] => false
  | a :: t, b :: s => a == b && charsPre t s

/-- The needle list occurs contiguously in the haystack list. -/
def charsSub (t : List Char) : List Char → Bool
  | [] => t.isEmpty
  | c :: rest => charsPre t (c :: rest) || charsSub t rest

/-- Python substring containment, needle in haystack. -/
def strIn (t s : String) : Bool := charsSub t.data s.data

/-! ### Section 2: column resolver (excel_loader.py) -/

/-- The per-header transformation of clean_headers: strip, lower, then replace each
space, slash and comma with an underscore and delete asterisks.  The pandas
str.replace chain in the source acts on single characters, so a single pass over
the characters is equivalent. -/
def clean_header (s : String) : String :=
  String.mk ((toLowerStr (trimStr s)).data.filterMap (fun c =>
    if c = '*' then none
    else if c = ' ' || c = '/' || c = ',' then some '_'
    else some c))

/-- clean_headers applied to a whole row. -/
def cleanRow (row : Row) : Row := row.map (fun kv => (clean_header kv.1, kv.2))

/-- First pass of find_column_flexible: exact key match.  Returns the stored value
(which may itself be None) for the first candidate name present in the row. -/
def exactPass (row : Row) (possible_names : List String) : Option Cell :=
  possible_names.findSome? (fun name => row.lookup name)

/-- The dict row_keys_lower of the second pass: maps a lowercased form to the row key
carrying it; a later column overwrites an earlier one, as in the dict comprehension. -/
def lowerKeyLookup (row : Row) (l : String) : Option String :=
  (row.reverse.find? (fun kv => toLowerStr kv.1 == l)).map (fun kv => kv.1)

/-- Second pass of find_column_flexible: case-insensitive exact match. -/
def ciPass (row : Row) (possible_names : List String) : Option Cell :=
  possible_names.findSome? (fun name =>
    (lowerKeyLookup row (toLowerStr name)).bind (fun k => row.lookup k))

/-- The substring-pass test for one candidate name and one key, including the gate
for very short candidate names. -/
def substrMatch (name key : String) : Bool :=
  let nameL := toLowerStr name
  let keyL := toLowerStr key
  (strIn nameL keyL || strIn keyL nameL) &&
    (decide (3 < name.length) || (decide (name.length ≤ 3) && nameL == keyL))

/-- Third pass of find_column_flexible: substring match in either direction. -/
def substrPass (row : Row) (possible_names : List String) : Option Cell :=
  possible_names.findSome? (fun name =>
    (row.find? (fun kv => substrMatch name kv.1)).map (fun kv => kv.2))

/-- find_column_flexible from excel_loader.py: the three passes are tried in strict
order, each loop returning as soon as it finds a column; no match yields None. -/
def find_column_flexible (row : Row) (possible_names : List String) : Cell :=
  match exactPass row possible_names with
  | some v => v
  | none =>
    match ciPass row possible_names with
    | some v => v
    | none =>
      match substrPass row possible_names with
      | some v => v
      | none => none

/-! ### Section 3: exact model of the binary64 score arithmetic

submit_assignment computes score = int((correct_count / total_questions * 100)).
Both the division and the multiplication are IEEE-754 binary64 operations,
correctly rounded to nearest with ties to even; int truncates toward zero.
The model computes the same values with exact natural-number arithmetic:
a positive rational is rounded to 53 significant bits.  Subnormals and overflow
cannot occur for the magnitudes the scoring path produces. -/

/-- Fuel-based floor of log2 (structural recursion so that the kernel can evaluate). -/
def log2Aux : ℕ → ℕ → ℕ
  | 0, _ => 0
  | fuel + 1, n => if n < 2 then 0 else 1 + log2Aux fuel (n / 2)

/-- Floor of log2 on the naturals. -/
def natLog2 (n : ℕ) : ℕ := log2Aux n n

/-- Round a/b (b ≥ 1) to the nearest integer, ties to even. -/
def rneFrac (a b : ℕ) : ℕ :=
  let q := a / b
  let r := a % b
  if 2 * r < b then q
  else if b < 2 * r then q + 1
  else if q % 2 = 0 then q else q + 1

/-- Floor of log2 of the positive rational a/b. -/
def fracLog2 (a b : ℕ) : ℤ :=
  let cand : ℤ := (natLog2 a : ℤ) - (natLog2 b : ℤ)
  if 0 ≤ cand then (if b * 2 ^ cand.toNat ≤ a then cand else cand - 1)
  else (if b ≤ a * 2 ^ (-cand).toNat then cand else cand - 1)

/-- A dyadic rational m * 2^g: the exact value of a binary64 float. -/
structure Dyadic where
  m : ℕ
  g : ℤ
deriving DecidableEq

/-- The rational value of a dyadic. -/
def Dyadic.val (d : Dyadic) : ℚ := (d.m : ℚ) * (2 : ℚ) ^ d.g

/-- Correct binary64 rounding of the positive rational a/b: round to nearest with
ties to even at 53 significant bits. -/
def roundFrac (a b : ℕ) : Dyadic :=
  let g : ℤ := fracLog2 a b - 52
  if 0 ≤ g then ⟨rneFrac a (b * 2 ^ g.toNat), g⟩
  else ⟨rneFrac (a * 2 ^ (-g).toNat) b, g⟩

/-- The score computation of submit_assignment:
int((correct_count / total_questions * 100)) when total_questions > 0, else 0.
A zero numerator divides to exactly 0.0, so that case is returned directly. -/
def pythonScore (correct total : ℕ) : ℕ :=
  if total = 0 then 0
  else if correct = 0 then 0
  else
    let x := roundFrac correct total
    let y :=
      if 0 ≤ x.g then roundFrac (x.m * 100 * 2 ^ x.g.toNat) 1
      else roundFrac (x.m * 100) (2 ^ (-x.g).toNat)
    if 0 ≤ y.g then y.m * 2 ^ y.g.toNat else y.m / 2 ^ (-y.g).toNat

/-! ### Section 4: the grading loop of submit_assignment -/

/-- One option of an assignment question, with its answer-key flag. -/
structure QuestionOption where
  text : String
  isCorrect : Bool
deriving DecidableEq

/-- One question of a shared assignment's answer key. -/
structure AssignmentQuestion where
  text : String
  helperText : String
  type : String
  options : List QuestionOption
deriving DecidableEq

/-- One submitted answer (schema AnswerSubmission). -/
structure AnswerSubmission where
  questionIndex : Int
  type : String
  selectedOptions : List Int
  textAnswer : Option String
deriving DecidableEq

/-- One per-question grading result (schema QuestionResult). -/
structure QuestionResult where
  questionIndex : Int
  isCorrect : Bool
  correctAnswers : List Int
  userAnswers : List Int
  userTextAnswer : Option String
deriving DecidableEq

/-- The correct-index collection loop: indices of the options whose isCorrect flag
is set, in order. -/
def correct_indices (options : List QuestionOption) : List Int :=
  go 0 options
where
  go (idx : ℕ) : List QuestionOption → List Int
    | [] => []
    | o :: rest => if o.isCorrect then (idx : Int) :: go (idx + 1) rest
                   else go (idx + 1) rest

/-- Python set(xs) == set(ys) on integer lists. -/
def listSetEq (xs ys : List Int) : Bool :=
  xs.all (fun x => ys.contains x) && ys.all (fun y => xs.contains y)

/-- One iteration of the evaluation loop of submit_assignment: ok none models the
continue for an index at or beyond the question count, an error models the
IndexError Python raises for a negative index below minus the length. -/
def evalAnswer (questions : List AssignmentQuestion) (answer : AnswerSubmission) :
    Except String (Option QuestionResult) :=
  if (questions.length : Int) ≤ answer.questionIndex then Except.ok none
  else
    match pyGetElem questions answer.questionIndex with
    | none => Except.error "IndexError: list index out of range"
    | some question =>
      let correctIdx : List Int :=
        if question.type == "single-choice" || question.type == "multiple-choice" then
          correct_indices question.options
        else []
      let corr : Bool :=
        if question.type == "single-choice" then
          decide (answer.selectedOptions.length = 1) &&
            correctIdx.contains answer.selectedOptions.headI
        else if question.type == "multiple-choice" then
          listSetEq answer.selectedOptions correctIdx
        else false
      Except.ok (some
        { questionIndex := answer.questionIndex
          isCorrect := corr
          correctAnswers := correctIdx
          userAnswers := answer.selectedOptions
          userTextAnswer :=
            if question.type == "text-input" then answer.textAnswer else none })

/-- The whole evaluation loop: correct count and per-question results, in
submission order; the first IndexError aborts the request. -/
def evalAnswers (questions : List AssignmentQuestion) :
    List AnswerSubmission → Except String (ℕ × List QuestionResult)
  | [] => Except.ok (0, [])
  | a :: rest =>
    match evalAnswer questions a with
    | Except.error e => Except.error e
    | Except.ok none => evalAnswers questions rest
    | Except.ok (some qr) =>
      match evalAnswers questions rest with
      | Except.error e => Except.error e
      | Except.ok (c, rs) => Except.ok ((if qr.isCorrect then 1 else 0) + c, qr :: rs)

/-- Grading core of submit_assignment, after the authorization and lookup steps:
returns (score, total_questions, correct_answers, question_results) as persisted
and returned to the employee. -/
def submit_assignment (questions : List AssignmentQuestion)
    (answers : List AnswerSubmission) :
    Except String (ℕ × ℕ × ℕ × List QuestionResult) :=
  match evalAnswers questions answers with
  | Except.error e => Except.error e
  | Except.ok (correct_count, question_results) =>
    Except.ok (pythonScore correct_count questions.length,
               questions.length, correct_count, question_results)

/-! ### Section 5: retrieval endpoints of shared_content_routes.py -/

/-- SQLAlchemy scalar_one_or_none on the rows a query produced: none for no rows,
the row when unique, and a MultipleResultsFound error for two or more rows. -/
def scalar_one_or_none {α : Type} : List α → Except String (Option α)
  | [] => Except.ok none
  | [x] => Except.ok (some x)
  | _ :: _ :: _ => Except.error "MultipleResultsFound"

/-- A row of training_assignments (the fields the endpoints read). -/
structure TrainingAssignmentRecord where
  training_id : ℕ
  employee_empid : String
  manager_empid : String
deriving DecidableEq

/-- A row of shared_assignments; assignment_data is the JSON question list, whose
serialization round-trip is modeled structurally. -/
structure SharedAssignmentRecord where
  id : ℕ
  training_id : ℕ
  trainer_username : String
  title : String
  description : String
  assignment_data : List AssignmentQuestion
  created_at : ℕ
  updated_at : ℕ
deriving DecidableEq

/-- The response schema SharedAssignmentResponse returned to the caller. -/
structure SharedAssignmentResponse where
  id : ℕ
  training_id : ℕ
  trainer_username : String
  title : String
  description : String
  questions : List AssignmentQuestion
  created_at : ℕ
  updated_at : ℕ
deriving DecidableEq

/-- A row of assignment_submissions (timestamps as naturals). -/
structure SubmissionRecord where
  id : ℕ
  training_id : ℕ
  shared_assignment_id : ℕ
  employee_empid : String
  answers_data : List AnswerSubmission
  score : ℕ
  total_questions : ℕ
  correct_answers : ℕ
  submitted_at : ℕ
deriving DecidableEq

/-- GET /shared-content/assignments/(training_id), the employee-facing retrieval:
after checking the training is assigned to the caller, the stored question list is
parsed and returned as the response field questions, unmodified. -/
def get_shared_assignment (assignments : List TrainingAssignmentRecord)
    (shared : List SharedAssignmentRecord) (employee : String) (training_id : ℕ) :
    Except String (Option SharedAssignmentResponse) :=
  match scalar_one_or_none (assignments.filter (fun t =>
      t.training_id == training_id && t.employee_empid == employee)) with
  | Except.error e => Except.error e
  | Except.ok none =>
    Except.error "403: You can only access assignments for trainings assigned to you"
  | Except.ok (some _) =>
    match scalar_one_or_none (shared.filter (fun sa => sa.training_id == training_id)) with
    | Except.error e => Except.error e
    | Except.ok none => Except.ok none
    | Except.ok (some sa) =>
      Except.ok (some
        { id := sa.id
          training_id := sa.training_id
          trainer_username := sa.trainer_username
          title := sa.title
          description := sa.description
          questions := sa.assignment_data
          created_at := sa.created_at
          updated_at := sa.updated_at })

/-- Insertion step of the stable sort modeling ORDER BY. -/
def insertSorted {α : Type} (le : α → α → Bool) (x : α) : List α → List α
  | [] => [x]
  | y :: ys => if le x y then x :: y :: ys else y :: insertSorted le x ys

/-- A stable sort modeling an SQL ORDER BY clause. -/
def orderBy {α : Type} (le : α → α → Bool) : List α → List α
  | [] => []
  | x :: xs => insertSorted le x (orderBy le xs)

/-- Submission lookup of GET /shared-content/assignments/(training_id)/result:
the matching submissions are ordered by submitted_at descending and then passed to
scalar_one_or_none. -/
def get_assignment_result (submissions : List SubmissionRecord)
    (training_id : ℕ) (employee : String) (shared_id : ℕ) :
    Except String (Option SubmissionRecord) :=
  scalar_one_or_none
    (orderBy (fun a b => decide (b.submitted_at ≤ a.submitted_at))
      (submissions.filter (fun s =>
        s.training_id == training_id && s.employee_empid == employee &&
          s.shared_assignment_id == shared_id)))

/-! ### Section 6: bulk loaders of excel_loader.py -/

/-- A row of the users table (the fields the loaders touch). -/
structure UserRecord where
  username : String
  hashed_password : String
deriving DecidableEq

/-- A row of manager_employee. -/
structure ManagerEmployeeRecord where
  manager_empid : String
  manager_name : Cell
  employee_empid : String
  employee_name : Cell
  manager_is_trainer : Bool
  employee_is_trainer : Bool
deriving DecidableEq

/-- A row of trainers; all four columns are declared NOT NULL in models.py. -/
structure TrainerRecord where
  skill : String
  competency : String
  trainer_name : String
  expertise_level : String
deriving DecidableEq

/-- A row of training_details exactly as the loader constructs it: every field
receives whatever cell the row carried (dates and numerics are carried as raw
cells, their parsing being irrelevant to the stated claims).  trainer_name and
training_name stay optional here because the constructor passes raw row.get
values for them, which can be None even though models.py declares the columns
NOT NULL. -/
structure TrainingRecord where
  division : Cell
  department : Cell
  competency : Cell
  skill : Cell
  training_name : Cell
  training_topics : Cell
  prerequisites : Cell
  skill_category : Cell
  trainer_name : Cell
  email : Cell
  training_date : Cell
  duration : Cell
  seats : Cell
  time : Cell
  training_type : Cell
  assessment_details : Cell
deriving DecidableEq

/-- The database tables the two loaders read or write. -/
structure Db where
  users : List UserRecord
  manager_employee : List ManagerEmployeeRecord
  trainers : List TrainerRecord
  training_details : List TrainingRecord
  training_assignments : List TrainingAssignmentRecord
deriving DecidableEq

/-- A request-scoped session: the last committed database state and the current
in-transaction state. -/
structure Session where
  committed : Db
  current : Db
deriving DecidableEq

/-- commit: the in-transaction state becomes the committed state. -/
def commitSession (s : Session) : Session := ⟨s.current, s.current⟩

/-- rollback: the in-transaction state is discarded. -/
def rollbackSession (s : Session) : Session := ⟨s.committed, s.committed⟩

/-- The usernames present in the users table. -/
def Db.usernames (db : Db) : List String := db.users.map (fun u => u.username)

/-- Validation of one Trainers Details row: flexible column lookup with exact-name
fallback, stripping, the Not Assigned default for a blank trainer name, and the
required-field check on skill, competency and expertise_level; none models a
skipped row. -/
def trainerFromRow (row : Row) : Option TrainerRecord :=
  let skill_val := pyStrip (pyOr (find_column_flexible row ["skill"]) (rowGet row "skill"))
  let competency_val := pyStrip (pyOr
    (find_column_flexible row ["competency", "competence"]) (rowGet row "competency"))
  let trainer_name_val := pyStrip (pyOr
    (pyOr (find_column_flexible row ["trainer_name", "trainername", "trainer name", "trainer"])
          (find_column_flexible row ["copmetency", "name"]))
    (rowGet row "trainer_name"))
  let expertise_level_val := pyStrip (pyOr
    (find_column_flexible row
      ["expertise_level", "expertiselevel", "expertise level", "expertise", "level"])
    (rowGet row "expertise_level"))
  let trainer_name_def := if pyTruthy trainer_name_val then trainer_name_val
                          else some "Not Assigned"
  if pyTruthy skill_val && pyTruthy competency_val && pyTruthy expertise_level_val then
    some { skill := skill_val.getD ""
           competency := competency_val.getD ""
           trainer_name := trainer_name_def.getD ""
           expertise_level := expertise_level_val.getD "" }
  else none

/-- The trainer-name value the Training Details validation computes: flexible
lookup, strip, then the Not Assigned default.  The record constructor below does
not use this value. -/
def trainingTrainerNameVal (row : Row) : Cell :=
  let v := pyStrip (pyOr
    (find_column_flexible row
      ["trainer_name", "trainer", "trainername", "trainer name", "copmetency", "name"])
    (rowGet row "trainer_name"))
  if pyTruthy v then v else some "Not Assigned"

/-- Validation and construction of one Training Details row.  The required-field
check is on the flexibly-resolved training name, but the constructed record takes
training_name and trainer_name from plain row.get, exactly as the source does
(note lines 299 and 303 of excel_loader.py use row.get, not the validated
values). -/
def trainingFromRow (row : Row) : Option TrainingRecord :=
  let training_name_val := pyStrip (pyOr
    (find_column_flexible row
      ["trainingname_program", "training_name", "trainingname", "training name",
       "program", "training"])
    (rowGet row "trainingname_program"))
  if pyTruthy training_name_val then
    some { division := rowGet row "division"
           department := rowGet row "department"
           competency := rowGet row "competency"
           skill := rowGet row "skill"
           training_name := rowGet row "trainingname_program"
           training_topics := rowGet row "trainingtopics__material"
           prerequisites := rowGet row "perquisites"
           skill_category := rowGet row "skill_category_(l1_-_l5)"
           trainer_name := rowGet row "trainer_name"
           email := rowGet row "email_id"
           training_date := rowGet row "training_dates"
           duration := if (rowGet row "duration_(in_hrs)").isSome
                       then rowGet row "duration_(in_hrs)" else none
           seats := if (rowGet row "no._of_seats)").isSome
                    then rowGet row "no._of_seats" else none
           time := rowGet row "time"
           training_type := rowGet row "training_type"
           assessment_details := rowGet row "assessment_details" }
  else none

/-- The uploaded workbook: sheets by name, rows with raw headers. -/
structure ExcelFile where
  sheets : List (String × List Row)
deriving DecidableEq

/-- load_all_from_excel: clears training_assignments, training_details and trainers
inside the transaction, reads and validates both sheets, fails without committing
when a sheet is missing or when every row of both sheets was skipped, and
otherwise inserts all valid records and commits.  An error carries the
post-rollback session, mirroring the except-rollback-raise wrapper; the
sequence-reset and id-renumbering steps do not change row contents and are not
modeled. -/
def load_all_from_excel (file : ExcelFile) (s : Session) :
    Except (String × Session) Session :=
  let cur : Db := { s.current with training_assignments := [], training_details := [],
                                   trainers := [] }
  match file.sheets.lookup "Trainers Details" with
  | none => Except.error ("Sheet not found: Trainers Details",
      rollbackSession ⟨s.committed, cur⟩)
  | some trainersRows =>
    let trainers_to_add := (trainersRows.map cleanRow).filterMap trainerFromRow
    match file.sheets.lookup "Training Details" with
    | none => Except.error ("Sheet not found: Training Details",
        rollbackSession ⟨s.committed, cur⟩)
    | some trainingRows =>
      let trainings_to_add := (trainingRows.map cleanRow).filterMap trainingFromRow
      if trainers_to_add.isEmpty && trainings_to_add.isEmpty then
        Except.error
          ("No valid data found in Excel file. All rows were skipped during validation.",
           rollbackSession ⟨s.committed, cur⟩)
      else
        Except.ok (commitSession ⟨s.committed,
          { cur with trainers := cur.trainers ++ trainers_to_add,
                     training_details := cur.training_details ++ trainings_to_add }⟩)

/-- A parsed CSV row with the manager-employee columns (cells are None for NaN;
the required-column presence check is outside this model's scope because a row
structure always carries its columns). -/
structure CsvRow where
  manager_empid : Cell
  manager_name : Cell
  employee_empid : Cell
  employee_name : Cell
  manager_is_trainer : Cell
  employee_is_trainer : Cell
deriving DecidableEq

/-- The to_bool helper of load_manager_employee_from_csv. -/
def to_bool (c : Cell) : Bool :=
  match c with
  | none => false
  | some v =>
    let s := toLowerStr (trimStr v)
    s == "t" || s == "true" || s == "1" || s == "yes" || s == "y"

/-- The unique user ids of the CSV, managers and employees together,
taken from the raw cells with no stripping (dropna().astype(str).unique()). -/
def csvUserIds (rows : List CsvRow) : List String :=
  ((rows.filterMap (fun r => r.manager_empid)) ++
    (rows.filterMap (fun r => r.employee_empid))).dedup

/-- Validation of one CSV row: strings stripped, booleans coerced, and the row
skipped unless both the manager and the employee id are truthy after stripping. -/
def meFromRow (r : CsvRow) : Option ManagerEmployeeRecord :=
  let manager_empid := pyStrip r.manager_empid
  let manager_name := pyStrip r.manager_name
  let employee_empid := pyStrip r.employee_empid
  let employee_name := pyStrip r.employee_name
  if pyTruthy manager_empid && pyTruthy employee_empid then
    some { manager_empid := manager_empid.getD ""
           manager_name := manager_name
           employee_empid := employee_empid.getD ""
           employee_name := employee_name
           manager_is_trainer := to_bool r.manager_is_trainer
           employee_is_trainer := to_bool r.employee_is_trainer }
  else none

/-- The fixed default password given to auto-created accounts. -/
def default_password : String := "password123"

/-- get_password_hash of auth_utils; bcrypt is modeled as an opaque injective tag. -/
def get_password_hash (password : String) : String := "bcrypt-hash:" ++ password

/-- The User account the reconciler creates for a missing id: the id as username
and the hashed fixed default password. -/
def newUserRecord (u : String) : UserRecord :=
  { username := u, hashed_password := get_password_hash default_password }

/-- load_manager_employee_from_csv: clears manager_employee inside the
transaction, collects the raw unique user ids, creates users for the missing ids
and commits that step on its own (which also commits the pending delete), then
validates the rows; if every row was skipped the import raises and rolls back,
otherwise the relationship rows are inserted and committed. -/
def load_manager_employee_from_csv (rows : List CsvRow) (s : Session) :
    Except (String × Session) Session :=
  let cur : Db := { s.current with manager_employee := [] }
  let all_user_ids := csvUserIds rows
  let missing_user_ids := all_user_ids.filter
    (fun u => !(cur.users.any (fun ur => ur.username == u)))
  let new_users := missing_user_ids.map newUserRecord
  let s1 : Session :=
    if missing_user_ids.isEmpty then ⟨s.committed, cur⟩
    else commitSession ⟨s.committed, { cur with users := cur.users ++ new_users }⟩
  let manager_employees_to_add := rows.filterMap meFromRow
  if manager_employees_to_add.isEmpty then
    Except.error
      ("No valid data found in CSV file. All rows were skipped during validation.",
       rollbackSession s1)
  else
    Except.ok (commitSession ⟨s1.committed,
      { s1.current with manager_employee :=
          s1.current.manager_employee ++ manager_employees_to_add }⟩)

/-! ### Section 7: specification-side predicates and concrete fixtures -/

/-- The option at integer index i of the key is flagged correct: the specification
reading of option i is flagged correct in the key. -/
def flaggedCorrect (options : List QuestionOption) (i : Int) : Prop :=
  ∃ k : ℕ, i = (k : Int) ∧ ∃ o : QuestionOption, options[k]? = some o ∧ o.isCorrect = true

/-- A single-choice question whose second option is the correct one. -/
def exQuestion : AssignmentQuestion :=
  { text := "Which keyword defines a function?"
    helperText := ""
    type := "single-choice"
    options := [{ text := "class", isCorrect := false }, { text := "def", isCorrect := true }] }

/-- A submitted answer selecting the given options for the given question index. -/
def exAnswer (i : Int) (sel : List Int) : AnswerSubmission :=
  { questionIndex := i, type := "single-choice", selectedOptions := sel, textAnswer := some "" }

/-- A single-choice question whose first option carries the given key flag. -/
def keyQuestion (flag : Bool) : AssignmentQuestion :=
  { text := "Pick one"
    helperText := ""
    type := "single-choice"
    options := [{ text := "A", isCorrect := flag }, { text := "B", isCorrect := !flag }] }

/-- Training 10 assigned to employee E1 by manager M1. -/
def exTrainingAssignment : TrainingAssignmentRecord :=
  { training_id := 10, employee_empid := "E1", manager_empid := "M1" }

/-- The shared assignment of training 10 with a one-question key carrying the flag. -/
def exSharedAssignment (flag : Bool) : SharedAssignmentRecord :=
  { id := 1, training_id := 10, trainer_username := "T1", title := "Quiz"
    description := "", assignment_data := [keyQuestion flag], created_at := 0, updated_at := 0 }

/-- A stored submission of employee E1 for shared assignment 1 of training 10. -/
def exSubmission (ident stamp : ℕ) : SubmissionRecord :=
  { id := ident, training_id := 10, shared_assignment_id := 1, employee_empid := "E1"
    answers_data := [], score := 50, total_questions := 2, correct_answers := 1
    submitted_at := stamp }

/-- An answer key of one hundred copies of a single-choice question whose first
option is correct. -/
def hundredQuestions : List AssignmentQuestion :=
  List.replicate 100
    { text := "Q", helperText := "", type := "single-choice"
      options := [{ text := "A", isCorrect := true }, { text := "B", isCorrect := false }] }

/-- Twenty-nine correct answers to the first twenty-nine of the hundred questions. -/
def twentyNineAnswers : List AnswerSubmission :=
  (List.range 29).map (fun i =>
    { questionIndex := (i : Int), type := "single-choice", selectedOptions := [0]
      textAnswer := some "" })

/-- An empty database. -/
def emptyDb : Db :=
  { users := [], manager_employee := [], trainers := [], training_details := []
    training_assignments := [] }

/-- A database holding one committed manager-employee relationship and one trainer. -/
def seededDb : Db :=
  { users := []
    manager_employee :=
      [{ manager_empid := "M0", manager_name := some "Old Manager"
         employee_empid := "E0", employee_name := some "Old Employee"
         manager_is_trainer := false, employee_is_trainer := false }]
    trainers :=
      [{ skill := "S", competency := "C", trainer_name := "T", expertise_level := "L" }]
    training_details := [], training_assignments := [] }

/-- A session whose committed and current states agree on the given database. -/
def sessionOn (db : Db) : Session := { committed := db, current := db }

/-- A CSV row naming a fresh manager M1 and no employee id: its identifier triggers
the user-creation commit, and the row itself is skipped by validation. -/
def skippedCsvRow : CsvRow :=
  { manager_empid := some "M1", manager_name := some "Manager One"
    employee_empid := none, employee_name := none
    manager_is_trainer := some "t", employee_is_trainer := none }

/-- A CSV row whose employee id carries surrounding whitespace. -/
def paddedCsvRow : CsvRow :=
  { manager_empid := some "M1", manager_name := some "Manager One"
    employee_empid := some " E100 ", employee_name := some "Employee"
    manager_is_trainer := none, employee_is_trainer := none }

/-- A CSV row with clean, whitespace-free identifiers. -/
def cleanCsvRow : CsvRow :=
  { manager_empid := some "M1", manager_name := some "Manager One"
    employee_empid := some "E100", employee_name := some "Employee"
    manager_is_trainer := some "t", employee_is_trainer := some "f" }

/-- A workbook whose two sheets hold only rows that validation skips. -/
def allSkippedFile : ExcelFile :=
  { sheets := [("Trainers Details", [[("Skill", some "")]]),
               ("Training Details", [[("Other", some "x")]])] }

/-- A Trainers Details row with a blank trainer name and the other fields filled. -/
def blankTrainerRow : Row :=
  cleanRow [("Skill", some "Python"), ("Competency", some "Dev"),
            ("Trainer Name", some ""), ("Expertise Level", some "L3")]

/-- A Training Details row with a training name and a blank trainer name. -/
def blankTrainingRow : Row :=
  cleanRow [("TrainingName_Program", some "Python Intro"), ("Trainer Name", some "")]

/-- The committed state left behind by the failed CSV import of skippedCsvRow over
the seeded database: the relationship table emptied, the fresh manager created. -/
def afterFailedCsvDb : Db :=
  { seededDb with
    manager_employee := []
    users := [{ username := "M1", hashed_password := get_password_hash default_password }] }

/-- The committed state a clean one-row CSV import over an empty database leaves:
both referenced users created, one relationship row inserted. -/
def afterCleanCsvDb : Db :=
  { emptyDb with
    users := [newUserRecord "M1", newUserRecord "E100"]
    manager_employee :=
      [{ manager_empid := "M1", manager_name := some "Manager One"
         employee_empid := "E100", employee_name := some "Employee"
         manager_is_trainer := true, employee_is_trainer := false }] }

/-! ### Supporting lemmas -/

lemma pyGetElem_natCast {α : Type} (xs : List α) (k : ℕ) (q : α)
    (hq : xs[k]? = some q) : pyGetElem xs (k : Int) = some q := by
  have : ((k : Int)).toNat = k := Int.toNat_natCast k
  simp [pyGetElem, this, hq]

lemma correct_indices_go_mem (opts : List QuestionOption) (base : ℕ) (i : Int) :
    i ∈ correct_indices.go base opts ↔
      ∃ k : ℕ, i = ((base + k : ℕ) : Int) ∧
        ∃ o : QuestionOption, opts[k]? = some o ∧ o.isCorrect = true := by
  induction opts generalizing base with
  | nil => simp [correct_indices.go]
  | cons o rest ih =>
    by_cases ho : o.isCorrect = true
    · rw [show correct_indices.go base (o :: rest) =
          (base : Int) :: correct_indices.go (base + 1) rest by
        simp [correct_indices.go, ho]]
      constructor
      · intro h
        rcases List.mem_cons.mp h with h1 | h2
        · exact ⟨0, by simpa using h1, o, by simp, ho⟩
        · obtain ⟨k, hk, oo, hoo, hc⟩ := (ih (base + 1)).mp h2
          refine ⟨k + 1, ?_, oo, by simpa using hoo, hc⟩
          rw [hk]
          push_cast
          ring
      · rintro ⟨k, hk, oo, hoo, hc⟩
        cases k with
        | zero =>
          have : i = (base : Int) := by simpa using hk
          rw [this]
          exact List.mem_cons_self _ _
        | succ k =>
          refine List.mem_cons_of_mem _ ((ih (base + 1)).mpr ⟨k, ?_, oo, by simpa using hoo, hc⟩)
          rw [hk]
          push_cast
          ring
    · rw [show correct_indices.go base (o :: rest) =
          correct_indices.go (base + 1) rest by
        simp [correct_indices.go, ho]]
      rw [ih (base + 1)]
      constructor
      · rintro ⟨k, hk, oo, hoo, hc⟩
        refine ⟨k + 1, ?_, oo, by simpa using hoo, hc⟩
        rw [hk]
        push_cast
        ring
      · rintro ⟨k, hk, oo, hoo, hc⟩
        cases k with
        | zero =>
          have hoe : o = oo := by simpa using hoo
          rw [hoe] at ho
          exact absurd hc ho
        | succ k =>
          refine ⟨k, ?_, oo, by simpa using hoo, hc⟩
          rw [hk]
          push_cast
          ring

lemma mem_correct_indices (opts : List QuestionOption) (i : Int) :
    i ∈ correct_indices opts ↔ flaggedCorrect opts i := by
  have := correct_indices_go_mem opts 0 i
  simpa [correct_indices, flaggedCorrect] using this

lemma listSetEq_iff (xs ys : List Int) :
    listSetEq xs ys = true ↔ (∀ i : Int, i ∈ xs ↔ i ∈ ys) := by
  simp only [listSetEq, Bool.and_eq_true, List.all_eq_true]
  constructor
  · rintro ⟨h1, h2⟩ i
    constructor
    · intro hi
      have := h1 i hi
      simpa using this
    · intro hi
      have := h2 i hi
      simpa using this
  · intro h
    constructor
    · intro x hx
      simpa using (h x).1 hx
    · intro y hy
      simpa using (h y).2 hy

/-! ### Claim theorems -/

/-- C7: the column resolver applies exactly three passes in strict precedence
(exact key match, case-insensitive exact match, substring match in either
direction), a candidate of length at most three substring-matches only when
case-insensitively equal to the header, no pass matching yields absence, and the
three concrete scenarios resolve as stated: a cleaned Training Name header by the
exact pass, a Program header by the substring pass, and an id header against the
candidate skill not at all. -/
theorem C7_column_resolver :
    (∀ (row : Row) (names : List String) (v : Cell),
      exactPass row names = some v → find_column_flexible row names = v) ∧
    (∀ (row : Row) (names : List String) (v : Cell),
      exactPass row names = none → ciPass row names = some v →
        find_column_flexible row names = v) ∧
    (∀ (row : Row) (names : List String) (v : Cell),
      exactPass row names = none → ciPass row names = none →
        substrPass row names = some v → find_column_flexible row names = v) ∧
    (∀ (row : Row) (names : List String),
      exactPass row names = none → ciPass row names = none →
        substrPass row names = none → find_column_flexible row names = none) ∧
    (∀ name key : String, name.length ≤ 3 → toLowerStr name ≠ toLowerStr key →
      substrMatch name key = false) ∧
    (clean_header "Training Name" = "training_name" ∧
      exactPass [("training_name", some "Intro")] ["trainingname_program", "training_name"] =
        some (some "Intro") ∧
      find_column_flexible [("training_name", some "Intro")]
        ["trainingname_program", "training_name"] = some "Intro") ∧
    (clean_header "Program" = "program" ∧
      exactPass [("program", some "Intro")] ["trainingname_program", "training_name"] = none ∧
      ciPass [("program", some "Intro")] ["trainingname_program", "training_name"] = none ∧
      find_column_flexible [("program", some "Intro")]
        ["trainingname_program", "training_name"] = some "Intro") ∧
    find_column_flexible [("id", some "7")] ["skill"] = none := by
  refine ⟨?_, ?_, ?_, ?_, ?_, by decide, by decide, by decide⟩
  · intro row names v h
    simp [find_column_flexible, h]
  · intro row names v h1 h2
    simp [find_column_flexible, h1, h2]
  · intro row names v h1 h2 h3
    simp [find_column_flexible, h1, h2, h3]
  · intro row names h1 h2 h3
    simp [find_column_flexible, h1, h2, h3]
  · intro name key hlen hne
    have h1 : decide (3 < name.length) = false := by
      simp [Nat.not_lt.mpr hlen]
    have h2 : (toLowerStr name == toLowerStr key) = false := by
      simpa using hne
    simp [substrMatch, h1, h2]

/-- C7 witness: the short-candidate gate applied to the concrete pair id, skill. -/
theorem C7_column_resolver_witness : substrMatch "id" "skill" = false :=
  C7_column_resolver.2.2.2.2.1 "id" "skill" (by decide) (by decide)

/-- C1: for an answer whose question index is a valid nonnegative index of the key,
the grader marks a single-choice question correct exactly when one option is
selected and it is flagged correct, marks a multiple-choice question correct
exactly when the selected index set equals the flagged-correct index set, never
marks a text-input question correct, and the grading entry point uses the full
question count (text-input questions included) as the score denominator. -/
theorem C1_per_question_rules (questions : List AssignmentQuestion)
    (answer : AnswerSubmission) (k : ℕ) (q : AssignmentQuestion)
    (hidx : answer.questionIndex = (k : Int)) (hq : questions[k]? = some q) :
    ∃ qr : QuestionResult,
      evalAnswer questions answer = Except.ok (some qr) ∧
      (q.type = "single-choice" →
        (qr.isCorrect = true ↔
          ∃ j : Int, answer.selectedOptions = [j] ∧ flaggedCorrect q.options j)) ∧
      (q.type = "multiple-choice" →
        (qr.isCorrect = true ↔
          ∀ i : Int, i ∈ answer.selectedOptions ↔ flaggedCorrect q.options i)) ∧
      (q.type = "text-input" → qr.isCorrect = false) ∧
      (∀ (answerList : List AnswerSubmission) (cc : ℕ) (qrs : List QuestionResult),
        evalAnswers questions answerList = Except.ok (cc, qrs) →
        submit_assignment questions answerList =
          Except.ok (pythonScore cc questions.length, questions.length, cc, qrs)) := by
  have hk : k < questions.length := (List.getElem?_eq_some.mp hq).1
  have hguard : ¬ ((questions.length : Int) ≤ answer.questionIndex) := by
    rw [hidx]
    exact Int.not_le.mpr (by exact_mod_cast hk)
  have hget : pyGetElem questions answer.questionIndex = some q := by
    rw [hidx]
    exact pyGetElem_natCast questions k q hq
  refine ⟨_, by rw [evalAnswer, if_neg hguard, hget], ?_, ?_, ?_, ?_⟩
  · intro ht
    simp only [ht]
    constructor
    · intro h
      simp only [show (("single-choice" : String) == "single-choice") = true by simp,
        if_true, Bool.and_eq_true, decide_eq_true_iff] at h
      obtain ⟨h1, h2⟩ := h
      obtain ⟨j, hj⟩ := List.length_eq_one.mp h1
      refine ⟨j, hj, ?_⟩
      rw [← mem_correct_indices]
      have : answer.selectedOptions.headI = j := by rw [hj]; rfl
      rw [← this]
      simpa using h2
    · rintro ⟨j, hj, hfc⟩
      simp only [show (("single-choice" : String) == "single-choice") = true by simp,
        if_true, Bool.and_eq_true, decide_eq_true_iff]
      refine ⟨by rw [hj]; rfl, ?_⟩
      have : answer.selectedOptions.headI = j := by rw [hj]; rfl
      rw [this]
      simpa using (mem_correct_indices q.options j).mpr hfc
  · intro ht
    simp only [ht, show (("multiple-choice" : String) == "single-choice") = false by simp,
      show (("multiple-choice" : String) == "multiple-choice") = true by simp,
      Bool.false_or, Bool.true_or, Bool.false_eq_true, eq_self_iff_true, if_false, if_true]
    rw [listSetEq_iff]
    constructor
    · intro h i
      rw [h i, mem_correct_indices]
    · intro h i
      rw [mem_correct_indices]
      exact h i
  · intro ht
    simp [ht]
  · intro answerList cc qrs h
    simp [submit_assignment, h]

/-- C1 witness: the rules instantiated at a one-question single-choice key with the
correct option selected. -/
theorem C1_per_question_rules_witness :
    (exAnswer 0 [1]).questionIndex = ((0 : ℕ) : Int) ∧
    [exQuestion][(0 : ℕ)]? = some exQuestion ∧
    (∃ qr : QuestionResult,
      evalAnswer [exQuestion] (exAnswer 0 [1]) = Except.ok (some qr) ∧
      (exQuestion.type = "single-choice" →
        (qr.isCorrect = true ↔
          ∃ j : Int, (exAnswer 0 [1]).selectedOptions = [j] ∧
            flaggedCorrect exQuestion.options j)) ∧
      (exQuestion.type = "multiple-choice" →
        (qr.isCorrect = true ↔
          ∀ i : Int, i ∈ (exAnswer 0 [1]).selectedOptions ↔
            flaggedCorrect exQuestion.options i)) ∧
      (exQuestion.type = "text-input" → qr.isCorrect = false) ∧
      (∀ (answerList : List AnswerSubmission) (cc : ℕ) (qrs : List QuestionResult),
        evalAnswers [exQuestion] answerList = Except.ok (cc, qrs) →
        submit_assignment [exQuestion] answerList =
          Except.ok (pythonScore cc [exQuestion].length, [exQuestion].length, cc, qrs))) :=
  ⟨by decide, by decide,
    C1_per_question_rules [exQuestion] (exAnswer 0 [1]) 0 exQuestion (by decide) (by decide)⟩

/-- C6 counterexample: with a one-question key, the answer index minus two
identifies no question, yet grading raises an index error instead of silently
dropping the answer; and the answer index minus one, equally outside the range
zero to n minus one, is graded against the last question and counted correct. -/
theorem C6_counterexample :
    pyGetElem [exQuestion] (-2 : Int) = (none : Option AssignmentQuestion) ∧
    evalAnswers [exQuestion] [exAnswer (-2) [1]] =
      Except.error "IndexError: list index out of range" ∧
    (evalAnswer [exQuestion] (exAnswer (-1) [1])).map
        (fun r => r.map (fun qr => qr.isCorrect)) = Except.ok (some true) := by
  decide

/-- C6 amended: an answer whose question index is at least the question count is
silently dropped by the grader: no error, no contribution to either count. -/
theorem C6_high_index_dropped (questions : List AssignmentQuestion)
    (a : AnswerSubmission) (rest : List AnswerSubmission)
    (h : (questions.length : Int) ≤ a.questionIndex) :
    evalAnswer questions a = Except.ok none ∧
    evalAnswers questions (a :: rest) = evalAnswers questions rest := by
  constructor
  · rw [evalAnswer, if_pos h]
  · rw [evalAnswers, evalAnswer, if_pos h]

/-- C6 witness: the amended statement at index five against a one-question key. -/
theorem C6_high_index_dropped_witness :
    (([exQuestion].length : ℕ) : Int) ≤ (exAnswer 5 [1]).questionIndex ∧
    (evalAnswer [exQuestion] (exAnswer 5 [1]) = Except.ok none ∧
      evalAnswers [exQuestion] (exAnswer 5 [1] :: [exAnswer 0 [1]]) =
        evalAnswers [exQuestion] [exAnswer 0 [1]]) :=
  ⟨by decide, C6_high_index_dropped [exQuestion] (exAnswer 5 [1]) [exAnswer 0 [1]] (by decide)⟩

/-- C9: with two stored submissions for the same employee and shared assignment,
the result lookup orders them by submission time descending but then calls
scalar_one_or_none, which raises MultipleResultsFound instead of returning the
most recent record. -/
theorem C9_multiple_submissions_error :
    get_assignment_result [exSubmission 1 100, exSubmission 2 200] 10 "E1" 1 =
      Except.error "MultipleResultsFound" ∧
    get_assignment_result [exSubmission 1 100] 10 "E1" 1 =
      Except.ok (some (exSubmission 1 100)) := by
  decide

/-- C3: the employee-facing retrieval of a shared assignment returns the stored
answer key verbatim, correctness flags included: the response differs when only an
isCorrect flag of the key changes, violating the claimed noninterference. -/
theorem C3_answer_key_exposed :
    (get_shared_assignment [exTrainingAssignment] [exSharedAssignment true] "E1" 10).map
        (fun r => r.map (fun resp => resp.questions)) =
      Except.ok (some [keyQuestion true]) ∧
    get_shared_assignment [exTrainingAssignment] [exSharedAssignment true] "E1" 10 ≠
      get_shared_assignment [exTrainingAssignment] [exSharedAssignment false] "E1" 10 := by
  decide

/-- C10: a Trainers Details row with a blank trainer name is inserted with the
placeholder Not Assigned and is not skipped, but a Training Details row with a
blank trainer name is inserted with the raw empty cell even though the loader
computed (and logged) the Not Assigned default for it. -/
theorem C10_training_default_ignored :
    trainerFromRow blankTrainerRow =
      some { skill := "Python", competency := "Dev", trainer_name := "Not Assigned",
             expertise_level := "L3" } ∧
    trainingTrainerNameVal blankTrainingRow = some "Not Assigned" ∧
    (trainingFromRow blankTrainingRow).map (fun r => r.trainer_name) = some (some "") ∧
    (trainingFromRow blankTrainingRow).map (fun r => r.training_name) =
      some (some "Python Intro") := by
  decide

lemma meFromRow_ids (r : CsvRow) (rec : ManagerEmployeeRecord)
    (h : meFromRow r = some rec) :
    r.manager_empid.map trimStr = some rec.manager_empid ∧
    r.employee_empid.map trimStr = some rec.employee_empid := by
  unfold meFromRow at h
  by_cases h1 : (pyTruthy (pyStrip r.manager_empid) && pyTruthy (pyStrip r.employee_empid)) = true
  · rw [if_pos h1] at h
    rw [Bool.and_eq_true] at h1
    obtain ⟨hm, he⟩ := h1
    injection h with h
    subst h
    constructor
    · cases hmv : r.manager_empid with
      | none => rw [hmv] at hm; exact absurd hm (by simp [pyStrip, pyTruthy])
      | some v => simp [pyStrip, hmv]
    · cases hev : r.employee_empid with
      | none => rw [hev] at he; exact absurd he (by simp [pyStrip, pyTruthy])
      | some v => simp [pyStrip, hev]
  · rw [if_neg h1] at h
    exact absurd h (by simp)

/-- C2 counterexample: a CSV import whose single row is skipped by validation (and
whose manager id is a fresh user) fails as claimed, but the manager_employee
table does not keep its prior rows: the user-creation commit also committed the
table deletion, so the failed import leaves the table empty. -/
theorem C2_counterexample :
    load_manager_employee_from_csv [skippedCsvRow] (sessionOn seededDb) =
      Except.error
        ("No valid data found in CSV file. All rows were skipped during validation.",
          sessionOn afterFailedCsvDb) ∧
    (sessionOn seededDb).committed.manager_employee ≠ ([] : List ManagerEmployeeRecord) := by
  decide

/-- C2 amended: an all-rows-skipped import fails with an error, and the target
tables keep their prior committed rows for load_all_from_excel always (any error
leaves the committed state untouched), and for load_manager_employee_from_csv
whenever the CSV references no user id absent from the user table; when a fresh
id forces the intermediate user-creation commit, the deletion of manager_employee
is committed with it and the prior rows are lost despite the failure. -/
theorem C2_zero_valid_rows :
    (∀ (file : ExcelFile) (s : Session) (msg : String) (s2 : Session),
      load_all_from_excel file s = Except.error (msg, s2) →
        s2.committed = s.committed ∧ s2.current = s.committed) ∧
    (∀ (file : ExcelFile) (s : Session) (trainersRows trainingRows : List Row),
      file.sheets.lookup "Trainers Details" = some trainersRows →
      file.sheets.lookup "Training Details" = some trainingRows →
      (trainersRows.map cleanRow).filterMap trainerFromRow = [] →
      (trainingRows.map cleanRow).filterMap trainingFromRow = [] →
      load_all_from_excel file s = Except.error
        ("No valid data found in Excel file. All rows were skipped during validation.",
          rollbackSession ⟨s.committed,
            { s.current with training_assignments := [], training_details := [],
                             trainers := [] }⟩)) ∧
    (∀ (rows : List CsvRow) (s : Session),
      rows.filterMap meFromRow = [] →
      (csvUserIds rows).filter
        (fun u => !(s.current.users.any (fun ur => ur.username == u))) = [] →
      load_manager_employee_from_csv rows s = Except.error
        ("No valid data found in CSV file. All rows were skipped during validation.",
          rollbackSession ⟨s.committed, { s.current with manager_employee := [] }⟩)) := by
  refine ⟨?_, ?_, ?_⟩
  · intro file s msg s2 h
    rw [load_all_from_excel] at h
    split at h
    · simp only [Except.error.injEq, Prod.mk.injEq] at h
      rw [← h.2]
      exact ⟨rfl, rfl⟩
    · split at h
      · simp only [Except.error.injEq, Prod.mk.injEq] at h
        rw [← h.2]
        exact ⟨rfl, rfl⟩
      · dsimp only at h
        split at h
        · simp only [Except.error.injEq, Prod.mk.injEq] at h
          rw [← h.2]
          exact ⟨rfl, rfl⟩
        · exact absurd h (by simp)
  · intro file s trainersRows trainingRows h1 h2 h3 h4
    rw [load_all_from_excel, h1, h2]
    simp [h3, h4]
  · intro rows s h1 h2
    rw [load_manager_employee_from_csv]
    simp [h1, h2]

/-- C2 witness: the CSV half of the amended statement at an empty import over the
seeded database. -/
theorem C2_zero_valid_rows_witness :
    ([] : List CsvRow).filterMap meFromRow = [] ∧
    (csvUserIds []).filter
      (fun u => !((sessionOn seededDb).current.users.any (fun ur => ur.username == u))) = [] ∧
    load_manager_employee_from_csv [] (sessionOn seededDb) = Except.error
      ("No valid data found in CSV file. All rows were skipped during validation.",
        rollbackSession ⟨(sessionOn seededDb).committed,
          { (sessionOn seededDb).current with manager_employee := [] }⟩) :=
  ⟨by decide, by decide, C2_zero_valid_rows.2.2 [] (sessionOn seededDb) (by decide) (by decide)⟩

/-- C8 counterexample: a CSV whose employee id carries surrounding whitespace
creates the padded username but inserts the stripped id in the relationship row,
so the inserted row references a username that does not exist in the user table. -/
theorem C8_counterexample :
    (load_manager_employee_from_csv [paddedCsvRow] (sessionOn emptyDb)).map
        (fun s2 => (s2.committed.manager_employee.map
            (fun r => (r.manager_empid, r.employee_empid)),
          s2.committed.usernames)) =
      Except.ok ([("M1", "E100")], ["M1", " E100 "]) ∧
    (load_manager_employee_from_csv [paddedCsvRow] (sessionOn emptyDb)).map
        (fun s2 => s2.committed.usernames.contains "E100") = Except.ok false := by
  decide

lemma any_username (users : List UserRecord) (v : String) :
    users.any (fun ur => ur.username == v) = true ↔
      v ∈ users.map (fun u => u.username) := by
  simp only [List.any_eq_true, beq_iff_eq, List.mem_map]

lemma mem_csvUserIds (rows : List CsvRow) (rec : ManagerEmployeeRecord)
    (htrim : ∀ r ∈ rows, pyStrip r.manager_empid = r.manager_empid ∧
      pyStrip r.employee_empid = r.employee_empid)
    (hrec : rec ∈ rows.filterMap meFromRow) :
    rec.manager_empid ∈ csvUserIds rows ∧ rec.employee_empid ∈ csvUserIds rows := by
  obtain ⟨r, hr, hmr⟩ := List.mem_filterMap.mp hrec
  obtain ⟨h1, h2⟩ := meFromRow_ids r rec hmr
  obtain ⟨ht1, ht2⟩ := htrim r hr
  simp only [pyStrip] at ht1 ht2
  rw [ht1] at h1
  rw [ht2] at h2
  constructor
  · simp only [csvUserIds, List.mem_dedup, List.mem_append]
    exact Or.inl (List.mem_filterMap.mpr ⟨r, hr, h1⟩)
  · simp only [csvUserIds, List.mem_dedup, List.mem_append]
    exact Or.inr (List.mem_filterMap.mpr ⟨r, hr, h2⟩)

/-- C8 amended: for a CSV whose identifier cells carry no surrounding whitespace,
every inserted relationship row references usernames present in the user table at
commit time; the user table grows only by accounts for identifiers that were not
already present, each created with the fixed default password (so a second import
referencing an existing identifier creates no new user).  Padded identifiers
break the correspondence because the reconciler collects them unstripped while
the relationship rows store them stripped. -/
theorem C8_reconciler (rows : List CsvRow) (s s2 : Session)
    (htrim : ∀ r ∈ rows, pyStrip r.manager_empid = r.manager_empid ∧
      pyStrip r.employee_empid = r.employee_empid)
    (hok : load_manager_employee_from_csv rows s = Except.ok s2) :
    (∀ rec ∈ s2.committed.manager_employee,
      rec.manager_empid ∈ s2.committed.usernames ∧
      rec.employee_empid ∈ s2.committed.usernames) ∧
    (∃ newUsers : List UserRecord,
      s2.committed.users = s.current.users ++ newUsers ∧
      ∀ u ∈ newUsers, u.hashed_password = get_password_hash default_password ∧
        u.username ∉ s.current.usernames) := by
  have hshape : s2.committed.manager_employee = rows.filterMap meFromRow ∧
      s2.committed.users = s.current.users ++
        ((csvUserIds rows).filter
          (fun u => !(s.current.users.any (fun ur => ur.username == u)))).map
          newUserRecord := by
    rw [load_manager_employee_from_csv] at hok
    dsimp only at hok
    by_cases hempty : (rows.filterMap meFromRow).isEmpty = true
    · rw [if_pos hempty] at hok
      exact absurd hok (by simp)
    · rw [if_neg hempty] at hok
      injection hok with hok
      by_cases hm : ((csvUserIds rows).filter
          (fun u => !(s.current.users.any (fun ur => ur.username == u)))).isEmpty = true
      · rw [if_pos hm] at hok
        rw [← hok]
        rw [List.isEmpty_iff.mp hm]
        exact ⟨by simp [commitSession], by simp [commitSession]⟩
      · rw [if_neg hm] at hok
        rw [← hok]
        exact ⟨by simp [commitSession], by simp [commitSession]⟩
  obtain ⟨hme, husers⟩ := hshape
  constructor
  · intro rec hrec
    rw [hme] at hrec
    have hmem := mem_csvUserIds rows rec htrim hrec
    have hcover : ∀ v ∈ csvUserIds rows, v ∈ s2.committed.usernames := by
      intro v hv
      rw [Db.usernames, husers, List.map_append, List.mem_append]
      by_cases ha : s.current.users.any (fun ur => ur.username == v) = true
      · exact Or.inl ((any_username _ _).mp ha)
      · refine Or.inr ?_
        have hvf : v ∈ (csvUserIds rows).filter
            (fun u => !(s.current.users.any (fun ur => ur.username == u))) :=
          List.mem_filter.mpr ⟨hv, by simp [ha]⟩
        simp only [List.map_map, List.mem_map]
        exact ⟨v, hvf, rfl⟩
    exact ⟨hcover _ hmem.1, hcover _ hmem.2⟩
  · refine ⟨_, husers, ?_⟩
    intro u hu
    simp only [List.mem_map] at hu
    obtain ⟨v, hv, rfl⟩ := hu
    have hf := List.mem_filter.mp hv
    refine ⟨rfl, ?_⟩
    intro hmem
    have : s.current.users.any (fun ur => ur.username == v) = true :=
      (any_username _ _).mpr hmem
    simp [this] at hf

/-- C8 witness: the amended statement at a clean one-row CSV over an empty
database. -/
theorem C8_reconciler_witness :
    (∀ r ∈ [cleanCsvRow], pyStrip r.manager_empid = r.manager_empid ∧
      pyStrip r.employee_empid = r.employee_empid) ∧
    load_manager_employee_from_csv [cleanCsvRow] (sessionOn emptyDb) =
      Except.ok (sessionOn afterCleanCsvDb) ∧
    ((∀ rec ∈ (sessionOn afterCleanCsvDb).committed.manager_employee,
      rec.manager_empid ∈ (sessionOn afterCleanCsvDb).committed.usernames ∧
      rec.employee_empid ∈ (sessionOn afterCleanCsvDb).committed.usernames) ∧
    (∃ newUsers : List UserRecord,
      (sessionOn afterCleanCsvDb).committed.users =
        (sessionOn emptyDb).current.users ++ newUsers ∧
      ∀ u ∈ newUsers, u.hashed_password = get_password_hash default_password ∧
        u.username ∉ (sessionOn emptyDb).current.usernames)) :=
  ⟨by decide, by decide,
    C8_reconciler [cleanCsvRow] (sessionOn emptyDb) (sessionOn afterCleanCsvDb)
      (by decide) (by decide)⟩

lemma log2Aux_spec : ∀ (fuel n : ℕ), 1 ≤ n → n ≤ fuel →
    2 ^ log2Aux fuel n ≤ n ∧ n < 2 ^ (log2Aux fuel n + 1) := by
  intro fuel
  induction fuel with
  | zero => intro n h1 h2; omega
  | succ fuel ih =>
    intro n h1 h2
    rw [log2Aux]
    by_cases hn : n < 2
    · rw [if_pos hn]
      constructor
      · simpa using h1
      · simpa using hn
    · rw [if_neg hn]
      have hrec := ih (n / 2) (by omega) (by omega)
      constructor
      · rw [show 1 + log2Aux fuel (n / 2) = log2Aux fuel (n / 2) + 1 by omega, pow_succ]
        have := hrec.1
        omega
      · rw [show 1 + log2Aux fuel (n / 2) + 1 = (log2Aux fuel (n / 2) + 1) + 1 by omega,
          pow_succ]
        have := hrec.2
        omega

lemma natLog2_le (n : ℕ) (h : 1 ≤ n) : 2 ^ natLog2 n ≤ n :=
  (log2Aux_spec n n h le_rfl).1

lemma natLog2_gt (n : ℕ) (h : 1 ≤ n) : n < 2 ^ (natLog2 n + 1) :=
  (log2Aux_spec n n h le_rfl).2

lemma rneFrac_ge_div (a b : ℕ) : a / b ≤ rneFrac a b := by
  simp only [rneFrac]
  split_ifs <;> omega

lemma rneFrac_err (a b : ℕ) (hb : 0 < b) :
    |(rneFrac a b : ℚ) - (a : ℚ) / b| ≤ 1 / 2 := by
  have hbQ : (0:ℚ) < (b:ℚ) := by exact_mod_cast hb
  have hmod : b * (a / b) + a % b = a := Nat.div_add_mod a b
  have hrlt : a % b < b := Nat.mod_lt a hb
  set q0 := a / b with hq0def
  set r := a % b with hrdef
  have hcast : (a:ℚ) = (b:ℚ) * q0 + r := by exact_mod_cast hmod.symm
  have hdiv : (a:ℚ)/b = (q0:ℚ) + (r:ℚ)/b := by
    rw [hcast]
    field_simp
    ring
  set t := (r:ℚ)/(b:ℚ) with htdef
  have ht0 : 0 ≤ t := by positivity
  have ht1 : t < 1 := by
    rw [htdef, div_lt_one hbQ]
    exact_mod_cast hrlt
  have htie : ¬ 2 * r < b → ¬ b < 2 * r → t = 1/2 := by
    intro hg1 hg2
    have hr0 : 0 < r := by omega
    have hbr : (b:ℚ) = 2 * r := by exact_mod_cast (by omega : b = 2 * r)
    have hrQ : (0:ℚ) < r := by exact_mod_cast hr0
    rw [htdef, hbr]
    rw [div_eq_iff (by positivity)]
    ring
  rw [hdiv]
  simp only [rneFrac]
  split_ifs with h1 h2 h3
  · have hth : t ≤ 1/2 := by
      rw [htdef, div_le_iff₀ hbQ]
      have : (2 * r : ℚ) ≤ b := by exact_mod_cast Nat.le_of_lt h1
      linarith
    rw [abs_le]
    constructor <;> linarith
  · have hth : 1/2 ≤ t := by
      rw [htdef, le_div_iff₀ hbQ]
      have : (b:ℚ) ≤ 2 * r := by exact_mod_cast Nat.le_of_lt h2
      linarith
    rw [abs_le]
    push_cast
    constructor <;> linarith
  · have hteq := htie h1 h2
    rw [abs_le]
    constructor <;> linarith
  · have hteq := htie h1 h2
    rw [abs_le]
    push_cast
    constructor <;> linarith

lemma natCast_pow_two (k : ℕ) : ((2 ^ k : ℕ) : ℚ) = (2:ℚ) ^ (k : ℤ) := by
  push_cast
  rw [zpow_natCast]

lemma fracLog2_cond_pos (a b : ℕ) (c : ℤ) (hb : 0 < b) (hs : 0 ≤ c) :
    b * 2 ^ c.toNat ≤ a ↔ (2:ℚ) ^ c ≤ (a:ℚ) / b := by
  have hbQ : (0:ℚ) < b := by exact_mod_cast hb
  rw [le_div_iff₀ hbQ,
    show (2:ℚ) ^ c = ((2 ^ c.toNat : ℕ) : ℚ) by rw [natCast_pow_two]; congr 1; omega,
    show ((2 ^ c.toNat : ℕ) : ℚ) * b = ((b * 2 ^ c.toNat : ℕ) : ℚ) by push_cast; ring]
  exact Iff.symm Nat.cast_le

lemma fracLog2_cond_neg (a b : ℕ) (c : ℤ) (hb : 0 < b) (hs : ¬ 0 ≤ c) :
    b ≤ a * 2 ^ (-c).toNat ↔ (2:ℚ) ^ c ≤ (a:ℚ) / b := by
  have hbQ : (0:ℚ) < b := by exact_mod_cast hb
  rw [show (2:ℚ) ^ c = (((2 ^ (-c).toNat : ℕ) : ℚ))⁻¹ by
      rw [natCast_pow_two, ← zpow_neg]; congr 1; omega,
    inv_eq_one_div, div_le_div_iff₀ (by positivity) hbQ, one_mul,
    show (a:ℚ) * ((2 ^ (-c).toNat : ℕ) : ℚ) = ((a * 2 ^ (-c).toNat : ℕ) : ℚ) by push_cast; ring]
  exact Iff.symm Nat.cast_le

lemma fracLog2_spec (a b : ℕ) (ha : 0 < a) (hb : 0 < b) :
    (2:ℚ) ^ fracLog2 a b ≤ (a:ℚ) / b ∧ (a:ℚ) / b < (2:ℚ) ^ (fracLog2 a b + 1) := by
  have hbQ : (0:ℚ) < b := by exact_mod_cast hb
  have haQ : (0:ℚ) < a := by exact_mod_cast ha
  set la := natLog2 a with hla
  set lb := natLog2 b with hlb
  have ha1 : ((2 ^ la : ℕ):ℚ) ≤ a := Nat.cast_le.mpr (natLog2_le a ha)
  have ha2 : (a:ℚ) < ((2 ^ (la + 1) : ℕ):ℚ) := by exact_mod_cast natLog2_gt a ha
  have hb1 : ((2 ^ lb : ℕ):ℚ) ≤ b := Nat.cast_le.mpr (natLog2_le b hb)
  have hb2 : (b:ℚ) < ((2 ^ (lb + 1) : ℕ):ℚ) := by exact_mod_cast natLog2_gt b hb
  set c : ℤ := (la:ℤ) - lb with hcdef
  have hup : (a:ℚ)/b < (2:ℚ) ^ (c + 1) := by
    have hrw : (2:ℚ) ^ (c + 1) = ((2 ^ (la + 1) : ℕ):ℚ) / ((2 ^ lb : ℕ):ℚ) := by
      rw [natCast_pow_two, natCast_pow_two, ← zpow_sub₀ (by norm_num : (2:ℚ) ≠ 0)]
      congr 1
      push_cast
      omega
    rw [hrw]
    calc (a:ℚ)/b ≤ (a:ℚ)/((2 ^ lb : ℕ):ℚ) := by gcongr
      _ < ((2 ^ (la + 1) : ℕ):ℚ) / ((2 ^ lb : ℕ):ℚ) := by gcongr
  have hdown : (2:ℚ) ^ (c - 1) < (a:ℚ)/b := by
    have hrw : (2:ℚ) ^ (c - 1) = ((2 ^ la : ℕ):ℚ) / ((2 ^ (lb + 1) : ℕ):ℚ) := by
      rw [natCast_pow_two, natCast_pow_two, ← zpow_sub₀ (by norm_num : (2:ℚ) ≠ 0)]
      congr 1
      push_cast
      omega
    rw [hrw]
    calc ((2 ^ la : ℕ):ℚ) / ((2 ^ (lb + 1) : ℕ):ℚ) < ((2 ^ la : ℕ):ℚ) / (b:ℚ) := by
          gcongr
      _ ≤ (a:ℚ)/b := by gcongr
  simp only [fracLog2]
  rw [← hla, ← hlb, ← hcdef]
  by_cases hs : 0 ≤ c
  · rw [if_pos hs]
    by_cases hcnd : b * 2 ^ c.toNat ≤ a
    · rw [if_pos hcnd]
      exact ⟨(fracLog2_cond_pos a b c hb hs).mp hcnd, hup⟩
    · rw [if_neg hcnd]
      have hlt : (a:ℚ)/b < (2:ℚ) ^ c :=
        lt_of_not_le (fun hcon => hcnd ((fracLog2_cond_pos a b c hb hs).mpr hcon))
      constructor
      · exact le_of_lt hdown
      · rw [show c - 1 + 1 = c by ring]
        exact hlt
  · rw [if_neg hs]
    by_cases hcnd : b ≤ a * 2 ^ (-c).toNat
    · rw [if_pos hcnd]
      exact ⟨(fracLog2_cond_neg a b c hb hs).mp hcnd, hup⟩
    · rw [if_neg hcnd]
      have hlt : (a:ℚ)/b < (2:ℚ) ^ c :=
        lt_of_not_le (fun hcon => hcnd ((fracLog2_cond_neg a b c hb hs).mpr hcon))
      constructor
      · exact le_of_lt hdown
      · rw [show c - 1 + 1 = c by ring]
        exact hlt

lemma rneFrac_scaled (a b a2 b2 : ℕ) (e : ℤ) (hb2 : 0 < b2)
    (hval : (a2:ℚ)/b2 = ((a:ℚ)/b) * (2:ℚ) ^ (52 - e))
    (hlo : (2:ℚ) ^ e ≤ (a:ℚ)/b) :
    |((rneFrac a2 b2 : ℚ)) * (2:ℚ) ^ (e - 52) - (a:ℚ)/b| ≤
      ((a:ℚ)/b) * (2:ℚ) ^ (-53 : ℤ) ∧ 1 ≤ rneFrac a2 b2 := by
  have herr := rneFrac_err a2 b2 hb2
  have hZpos : (0:ℚ) < (2:ℚ) ^ (e - 52) := zpow_pos (by norm_num) _
  have hcancel : (2:ℚ) ^ (52 - e) * (2:ℚ) ^ (e - 52) = 1 := by
    rw [← zpow_add₀ (by norm_num : (2:ℚ) ≠ 0)]
    norm_num
  constructor
  · have step : (rneFrac a2 b2 : ℚ) * (2:ℚ) ^ (e - 52) - (a:ℚ)/b
        = ((rneFrac a2 b2 : ℚ) - (a2:ℚ)/b2) * (2:ℚ) ^ (e - 52) := by
      rw [sub_mul, hval, mul_assoc, hcancel, mul_one]
    rw [step, abs_mul, abs_of_pos hZpos]
    calc |(rneFrac a2 b2 : ℚ) - (a2:ℚ)/b2| * (2:ℚ) ^ (e - 52)
        ≤ (1/2) * (2:ℚ) ^ (e - 52) := mul_le_mul_of_nonneg_right herr hZpos.le
      _ = (2:ℚ) ^ (e - 53) := by
          rw [show (1/2 : ℚ) = (2:ℚ) ^ (-1 : ℤ) by norm_num,
            ← zpow_add₀ (by norm_num : (2:ℚ) ≠ 0)]
          congr 1
          omega
      _ ≤ ((a:ℚ)/b) * (2:ℚ) ^ (-53 : ℤ) := by
          rw [show (e - 53 : ℤ) = e + -53 by ring, zpow_add₀ (by norm_num : (2:ℚ) ≠ 0)]
          exact mul_le_mul_of_nonneg_right hlo (by positivity)
  · have h52 : (1:ℚ) ≤ (a2:ℚ)/b2 := by
      rw [hval]
      calc (1:ℚ) ≤ (2:ℚ) ^ (52 : ℤ) := by norm_num
        _ = (2:ℚ) ^ e * (2:ℚ) ^ (52 - e) := by
            rw [← zpow_add₀ (by norm_num : (2:ℚ) ≠ 0)]
            congr 1
            omega
        _ ≤ ((a:ℚ)/b) * (2:ℚ) ^ (52 - e) :=
            mul_le_mul_of_nonneg_right hlo (by positivity)
    have hle : b2 ≤ a2 := by
      have hb2Q : (0:ℚ) < b2 := by exact_mod_cast hb2
      have := (one_le_div hb2Q).mp h52
      exact_mod_cast this
    calc 1 ≤ a2 / b2 := (Nat.one_le_div_iff hb2).mpr hle
      _ ≤ rneFrac a2 b2 := rneFrac_ge_div a2 b2

lemma roundFrac_spec (a b : ℕ) (ha : 0 < a) (hb : 0 < b) :
    |(roundFrac a b).val - (a:ℚ)/b| ≤ ((a:ℚ)/b) * (2:ℚ) ^ (-53 : ℤ) ∧
      1 ≤ (roundFrac a b).m := by
  obtain ⟨hlo, hhi⟩ := fracLog2_spec a b ha hb
  have hbQ : (0:ℚ) < b := by exact_mod_cast hb
  simp only [roundFrac]
  set e := fracLog2 a b with he
  split_ifs with hg
  · have hb2 : 0 < b * 2 ^ (e - 52).toNat := by positivity
    have hval : ((a:ℕ):ℚ)/((b * 2 ^ (e - 52).toNat : ℕ):ℚ) = ((a:ℚ)/b) * (2:ℚ) ^ (52 - e) := by
      push_cast
      rw [show ((2:ℚ) ^ (e - 52).toNat) = (2:ℚ) ^ ((e - 52 : ℤ)) by
        rw [← zpow_natCast]; congr 1; omega]
      rw [div_mul_eq_div_div, div_eq_mul_inv ((a:ℚ)/b), ← zpow_neg]
      ring_nf
    have key := rneFrac_scaled a b a (b * 2 ^ (e - 52).toNat) e hb2 hval hlo
    exact ⟨by simpa [Dyadic.val] using key.1, key.2⟩
  · have hval : ((a * 2 ^ (-(e - 52)).toNat : ℕ):ℚ)/((b:ℕ):ℚ) = ((a:ℚ)/b) * (2:ℚ) ^ (52 - e) := by
      push_cast
      rw [show ((2:ℚ) ^ (-(e - 52)).toNat) = (2:ℚ) ^ ((52 - e : ℤ)) by
        rw [← zpow_natCast]; congr 1; omega]
      ring
    have key := rneFrac_scaled a b (a * 2 ^ (-(e - 52)).toNat) b e hb hval hlo
    exact ⟨by simpa [Dyadic.val] using key.1, key.2⟩

lemma dyadic_val_nonneg (d : Dyadic) : 0 ≤ d.val := by
  rw [Dyadic.val]
  positivity

lemma dyadic_trunc_eq_floor (d : Dyadic) :
    (if 0 ≤ d.g then d.m * 2 ^ d.g.toNat else d.m / 2 ^ (-d.g).toNat) = ⌊d.val⌋₊ := by
  rw [Dyadic.val]
  split_ifs with hg
  · rw [show (2:ℚ) ^ d.g = ((2 ^ d.g.toNat : ℕ) : ℚ) by rw [natCast_pow_two]; congr 1; omega,
      show (d.m : ℚ) * ((2 ^ d.g.toNat : ℕ) : ℚ) = ((d.m * 2 ^ d.g.toNat : ℕ) : ℚ) by
        push_cast; ring,
      Nat.floor_natCast]
  · rw [show (2:ℚ) ^ d.g = (((2 ^ (-d.g).toNat : ℕ) : ℚ))⁻¹ by
        rw [natCast_pow_two, ← zpow_neg]; congr 1; omega,
      ← div_eq_mul_inv, Nat.floor_div_nat, Nat.floor_natCast]

lemma pythonScore_floor (c t : ℕ) (hc : 0 < c) (ht : 0 < t) :
    ∃ Y : ℚ, 0 ≤ Y ∧ pythonScore c t = ⌊Y⌋₊ ∧
      |Y - 100 * ((c:ℚ) / t)| ≤ (100 * ((c:ℚ) / t)) * (2:ℚ) ^ (-51 : ℤ) := by
  obtain ⟨hxerr, hxm⟩ := roundFrac_spec c t hc ht
  set x := roundFrac c t with hxdef
  set q : ℚ := (c:ℚ)/t with hqdef
  have hq0 : (0:ℚ) < q := by rw [hqdef]; positivity
  have hxval0 : 0 ≤ x.val := dyadic_val_nonneg x
  have hsec : ∃ y : Dyadic,
      (if 0 ≤ x.g then roundFrac (x.m * 100 * 2 ^ x.g.toNat) 1
        else roundFrac (x.m * 100) (2 ^ (-x.g).toNat)) = y ∧
      |y.val - 100 * x.val| ≤ (100 * x.val) * (2:ℚ) ^ (-53 : ℤ) := by
    split_ifs with hg
    · have ha2 : 0 < x.m * 100 * 2 ^ x.g.toNat := by positivity
      have hs := roundFrac_spec (x.m * 100 * 2 ^ x.g.toNat) 1 ha2 one_pos
      have hv : ((x.m * 100 * 2 ^ x.g.toNat : ℕ) : ℚ) / ((1:ℕ):ℚ) = 100 * x.val := by
        rw [Dyadic.val]
        push_cast
        rw [show ((2:ℚ) ^ x.g.toNat) = (2:ℚ) ^ x.g by rw [← zpow_natCast]; congr 1; omega]
        ring
      have h1 := hs.1
      rw [hv] at h1
      exact ⟨_, rfl, h1⟩
    · have hb2 : 0 < 2 ^ (-x.g).toNat := by positivity
      have ha2 : 0 < x.m * 100 := by positivity
      have hs := roundFrac_spec (x.m * 100) (2 ^ (-x.g).toNat) ha2 hb2
      have hv : ((x.m * 100 : ℕ) : ℚ) / ((2 ^ (-x.g).toNat : ℕ):ℚ) = 100 * x.val := by
        rw [Dyadic.val]
        push_cast
        rw [show ((2:ℚ) ^ (-x.g).toNat) = (2:ℚ) ^ (-x.g) by rw [← zpow_natCast]; congr 1; omega,
          zpow_neg, div_eq_mul_inv, inv_inv]
        ring
      have h1 := hs.1
      rw [hv] at h1
      exact ⟨_, rfl, h1⟩
  obtain ⟨y, hy, hyerr⟩ := hsec
  have hy0 : 0 ≤ y.val := dyadic_val_nonneg y
  refine ⟨y.val, hy0, ?_, ?_⟩
  · rw [pythonScore, if_neg (by omega), if_neg (by omega)]
    dsimp only
    rw [← hxdef, hy, dyadic_trunc_eq_floor]
  · set ε : ℚ := (2:ℚ) ^ (-53 : ℤ) with hεdef
    have hε0 : 0 ≤ ε := by rw [hεdef]; positivity
    have hε1 : ε ≤ 1 := by
      rw [hεdef, zpow_neg, show ((53:ℤ)) = ((53:ℕ):ℤ) by norm_num, zpow_natCast]
      rw [inv_le_one₀ (by positivity)]
      norm_num
    have h51 : (4:ℚ) * ε = (2:ℚ) ^ (-51 : ℤ) := by
      rw [hεdef, show (-51 : ℤ) = 2 + -53 by norm_num,
        zpow_add₀ (by norm_num : (2:ℚ) ≠ 0)]
      norm_num
    have e2 : |x.val - q| ≤ q * ε := hxerr
    have e3 : x.val ≤ q * (1 + ε) := by
      have := (abs_le.mp e2).2
      nlinarith
    have e4 : |100 * x.val - 100 * q| ≤ 100 * (q * ε) := by
      rw [show (100:ℚ) * x.val - 100 * q = 100 * (x.val - q) by ring, abs_mul,
        abs_of_pos (by norm_num : (0:ℚ) < 100)]
      nlinarith [e2]
    have e5 : 100 * x.val * ε ≤ 100 * (q * (1 + ε)) * ε := by
      have h100 : (0:ℚ) ≤ 100 := by norm_num
      nlinarith [e3, hε0]
    calc |y.val - 100 * q|
        ≤ |y.val - 100 * x.val| + |100 * x.val - 100 * q| := abs_sub_le _ _ _
      _ ≤ 100 * (q * (1 + ε)) * ε + 100 * (q * ε) := by
          have := hyerr
          nlinarith [e5, e4, this]
      _ = 100 * q * (2 * ε + ε * ε) := by ring
      _ ≤ 100 * q * (4 * ε) := by
          have hin : 2 * ε + ε * ε ≤ 4 * ε := by nlinarith [hε0, hε1]
          have h100q : (0:ℚ) ≤ 100 * q := by positivity
          exact mul_le_mul_of_nonneg_left hin h100q
      _ = (100 * q) * (2:ℚ) ^ (-51 : ℤ) := by rw [h51]

lemma pythonScore_le_100 (c t : ℕ) (hct : c ≤ t) : pythonScore c t ≤ 100 := by
  rcases Nat.eq_zero_or_pos t with ht | ht
  · subst ht
    simp [pythonScore]
  rcases Nat.eq_zero_or_pos c with hc | hc
  · subst hc
    rw [pythonScore, if_neg (by omega)]
    simp
  obtain ⟨Y, hY0, hs, herr⟩ := pythonScore_floor c t hc ht
  rw [hs]
  have htQ : (0:ℚ) < t := by exact_mod_cast ht
  have hq1 : (c:ℚ)/t ≤ 1 := by
    rw [div_le_one htQ]
    exact_mod_cast hct
  have hq0 : (0:ℚ) ≤ (c:ℚ)/t := by positivity
  have hε51 : (0:ℚ) ≤ (2:ℚ) ^ (-51 : ℤ) := by positivity
  have h1 : (100:ℚ) * (2:ℚ) ^ (-51:ℤ) < 1 := by
    rw [zpow_neg, show ((51:ℤ)) = ((51:ℕ):ℤ) by norm_num, zpow_natCast,
      mul_inv_lt_iff₀ (by positivity)]
    norm_num
  have h100q : 100 * ((c:ℚ)/t) ≤ 100 := by nlinarith [hq1]
  have hprod : (100 * ((c:ℚ)/t)) * (2:ℚ) ^ (-51:ℤ) ≤ 100 * (2:ℚ) ^ (-51:ℤ) :=
    mul_le_mul_of_nonneg_right h100q hε51
  have hYlt : Y < 101 := by
    have h2 := (abs_le.mp herr).2
    linarith
  have : ⌊Y⌋₊ < 101 := (Nat.floor_lt hY0).mpr (by exact_mod_cast hYlt)
  omega

/-- C4 counterexample: a hundred-question assignment with twenty-nine correct
answers is persisted with score 28, while the exact integer floor of
100 times 29 over 100 is 29 — the code computes the score in binary64 floating
point, not exact integer arithmetic. -/
theorem C4_counterexample :
    (submit_assignment hundredQuestions twentyNineAnswers).map (fun r => r.1) =
      Except.ok 28 ∧
    (submit_assignment hundredQuestions twentyNineAnswers).map (fun r => r.2.1) =
      Except.ok 100 ∧
    (submit_assignment hundredQuestions twentyNineAnswers).map (fun r => r.2.2.1) =
      Except.ok 29 ∧
    (100 * 29) / 100 = 29 := by
  decide

/-- C4 amended: the persisted score is the truncation of the IEEE-754 binary64
evaluation of (correct / total) * 100; for any total up to 2^40 it equals either
the exact floor of 100 times correct over total or that floor minus one (the
float computation can land one below, as at 29 of 100), and a zero total yields
score 0 with no division fault. -/
theorem C4_score_rounding (c t : ℕ) (hct : c ≤ t) (ht : 0 < t) (hbound : t ≤ 2 ^ 40) :
    (100 * c) / t - 1 ≤ pythonScore c t ∧ pythonScore c t ≤ (100 * c) / t ∧
      (∀ a : ℕ, pythonScore a 0 = 0) := by
  have hzero : ∀ a : ℕ, pythonScore a 0 = 0 := fun a => by rw [pythonScore, if_pos rfl]
  rcases Nat.eq_zero_or_pos c with hc | hc
  · subst hc
    have hps : pythonScore 0 t = 0 := by
      rw [pythonScore, if_neg (by omega), if_pos rfl]
    rw [hps]
    simp [hzero]
  obtain ⟨Y, hY0, hs, herr⟩ := pythonScore_floor c t hc ht
  set N := (100 * c) / t with hN
  set sr := (100 * c) % t with hsr
  have hNs : t * N + sr = 100 * c := Nat.div_add_mod (100 * c) t
  have hst : sr < t := Nat.mod_lt _ ht
  have htQ : (0:ℚ) < t := by exact_mod_cast ht
  have htQ1 : (1:ℚ) ≤ t := by exact_mod_cast ht
  have hqeq : 100 * ((c:ℚ)/t) = (N:ℚ) + (sr:ℚ)/t := by
    have hcast : ((100 * c : ℕ):ℚ) = (t:ℚ) * N + sr := by exact_mod_cast hNs.symm
    field_simp
    push_cast at hcast ⊢
    linarith
  have hq1 : (c:ℚ)/t ≤ 1 := by
    rw [div_le_one htQ]
    exact_mod_cast hct
  have hq0 : (0:ℚ) ≤ (c:ℚ)/t := by positivity
  have hε51 : (0:ℚ) ≤ (2:ℚ) ^ (-51 : ℤ) := by positivity
  have hsmall : (100:ℚ) * (2:ℚ) ^ (-51:ℤ) < 1 / t := by
    have ht40 : (t:ℚ) ≤ (2:ℚ) ^ (40:ℕ) := by exact_mod_cast hbound
    rw [lt_div_iff₀ htQ]
    calc 100 * (2:ℚ) ^ (-51:ℤ) * t ≤ 100 * (2:ℚ) ^ (-51:ℤ) * (2:ℚ) ^ (40:ℕ) := by
          apply mul_le_mul_of_nonneg_left ht40 (by positivity)
      _ < 1 := by
          rw [show ((2:ℚ) ^ (40:ℕ)) = (2:ℚ) ^ ((40:ℕ):ℤ) by rw [zpow_natCast],
            mul_assoc, ← zpow_add₀ (by norm_num : (2:ℚ) ≠ 0)]
          rw [show (-51 + ((40:ℕ):ℤ)) = -(11:ℤ) by norm_num, zpow_neg,
            show ((11:ℤ)) = ((11:ℕ):ℤ) by norm_num, zpow_natCast,
            mul_inv_lt_iff₀ (by positivity)]
          norm_num
  have hqerr : (100 * ((c:ℚ)/t)) * (2:ℚ) ^ (-51:ℤ) < 1 / t := by
    calc (100 * ((c:ℚ)/t)) * (2:ℚ) ^ (-51:ℤ) ≤ 100 * (2:ℚ) ^ (-51:ℤ) := by
          apply mul_le_mul_of_nonneg_right _ hε51
          nlinarith [hq1]
      _ < 1 / t := hsmall
  have hsdivQ : (sr:ℚ)/t ≤ 1 - 1/t := by
    have hsQ : (sr:ℚ) ≤ (t:ℚ) - 1 := by
      have h3 : (sr + 1 : ℕ) ≤ t := by omega
      have h4 : ((sr + 1 : ℕ):ℚ) ≤ (t:ℚ) := by exact_mod_cast h3
      push_cast at h4
      linarith
    rw [div_le_iff₀ htQ, sub_mul, one_mul, div_mul_cancel₀ _ (ne_of_gt htQ)]
    exact hsQ
  have habs := abs_le.mp herr
  constructor
  · -- lower bound: N - 1 ≤ floor Y
    rcases Nat.eq_zero_or_pos N with hN0 | hN0
    · omega
    · rw [hs]
      have hYgt : ((N - 1 : ℕ):ℚ) ≤ Y := by
        rw [Nat.cast_sub (by omega)]
        have hsge : (0:ℚ) ≤ (sr:ℚ)/t := by positivity
        have h1t : 1/(t:ℚ) ≤ 1 := by
          rw [div_le_one htQ]
          exact htQ1
        push_cast
        linarith [habs.1, hqeq, hqerr]
      have := Nat.le_floor hYgt
      omega
  · constructor
    · rw [hs]
      have hYlt : Y < ((N + 1 : ℕ):ℚ) := by
        push_cast
        linarith [habs.2, hqeq, hqerr, hsdivQ]
      have := (Nat.floor_lt hY0).mpr hYlt
      omega
    · exact hzero

/-- C4 witness: the amended statement at seven correct answers of ten. -/
theorem C4_score_rounding_witness :
    (7:ℕ) ≤ 10 ∧ (0:ℕ) < 10 ∧ (10:ℕ) ≤ 2 ^ 40 ∧
    ((100 * 7) / 10 - 1 ≤ pythonScore 7 10 ∧ pythonScore 7 10 ≤ (100 * 7) / 10 ∧
      (∀ a : ℕ, pythonScore a 0 = 0)) :=
  ⟨by norm_num, by norm_num, by norm_num,
    C4_score_rounding 7 10 (by norm_num) (by norm_num) (by norm_num)⟩

lemma evalAnswers_count (questions : List AssignmentQuestion) :
    ∀ (answers : List AnswerSubmission) (cc : ℕ) (qrs : List QuestionResult),
      evalAnswers questions answers = Except.ok (cc, qrs) →
      cc ≤ qrs.length ∧
      qrs.map (fun r => r.questionIndex) =
        (answers.filter (fun a => decide (a.questionIndex < (questions.length : Int)))).map
          (fun a => a.questionIndex) := by
  intro answers
  induction answers with
  | nil =>
    intro cc qrs h
    rw [evalAnswers] at h
    simp only [Except.ok.injEq, Prod.mk.injEq] at h
    obtain ⟨rfl, rfl⟩ := h
    simp
  | cons a rest ih =>
    intro cc qrs h
    rw [evalAnswers] at h
    by_cases hdrop : (questions.length : Int) ≤ a.questionIndex
    · rw [show evalAnswer questions a = Except.ok none by rw [evalAnswer, if_pos hdrop]] at h
      have hres := ih cc qrs h
      refine ⟨hres.1, ?_⟩
      rw [List.filter_cons_of_neg (by simp [Int.not_lt.mpr hdrop])]
      exact hres.2
    · cases hev : evalAnswer questions a with
      | error e =>
        rw [hev] at h
        exact absurd h (by simp)
      | ok o =>
        cases o with
        | none =>
          exfalso
          rw [evalAnswer, if_neg hdrop] at hev
          cases hpy : pyGetElem questions a.questionIndex with
          | none => rw [hpy] at hev; exact absurd hev (by simp)
          | some q2 => rw [hpy] at hev; simp at hev
        | some qr =>
          rw [hev] at h
          cases hrest : evalAnswers questions rest with
          | error e =>
            rw [hrest] at h
            exact absurd h (by simp)
          | ok p =>
            obtain ⟨c2, rs⟩ := p
            rw [hrest] at h
            simp only [Except.ok.injEq, Prod.mk.injEq] at h
            obtain ⟨hcc, hqrs⟩ := h
            have hres := ih c2 rs hrest
            have hqi : qr.questionIndex = a.questionIndex := by
              rw [evalAnswer, if_neg hdrop] at hev
              cases hpy : pyGetElem questions a.questionIndex with
              | none => rw [hpy] at hev; exact absurd hev (by simp)
              | some q2 =>
                rw [hpy] at hev
                simp only [Except.ok.injEq, Option.some.injEq] at hev
                rw [← hev]
            constructor
            · rw [← hcc, ← hqrs]
              have := hres.1
              simp only [List.length_cons]
              split_ifs <;> omega
            · rw [← hqrs, List.filter_cons_of_pos (by simp [Int.not_le.mp hdrop])]
              simp only [List.map_cons]
              rw [hqi, hres.2]

lemma correct_count_le_total (questions : List AssignmentQuestion)
    (answers : List AnswerSubmission)
    (hnodup : (answers.map (fun a => a.questionIndex)).Nodup)
    (hpos : ∀ a ∈ answers, 0 ≤ a.questionIndex)
    (cc : ℕ) (qrs : List QuestionResult)
    (h : evalAnswers questions answers = Except.ok (cc, qrs)) :
    cc ≤ questions.length := by
  obtain ⟨h1, h2⟩ := evalAnswers_count questions answers cc qrs h
  set flt := answers.filter (fun a => decide (a.questionIndex < (questions.length : Int)))
    with hflt
  have hlen : qrs.length = flt.length := by
    have := congrArg List.length h2
    simpa using this
  set li : List Int := flt.map (fun a => a.questionIndex) with hli
  have hsub : li.Sublist (answers.map (fun a => a.questionIndex)) :=
    List.Sublist.map _ (List.filter_sublist answers)
  have hnd : li.Nodup := hnodup.sublist hsub
  have hmemb : ∀ x ∈ li, 0 ≤ x ∧ x < (questions.length : Int) := by
    intro x hx
    obtain ⟨aa, ha, rfl⟩ := List.mem_map.mp hx
    have hf := List.mem_filter.mp ha
    exact ⟨hpos aa hf.1, by simpa using hf.2⟩
  set ln : List ℕ := li.map Int.toNat with hln
  have hndn : ln.Nodup := by
    apply List.Nodup.map_on _ hnd
    intro x hx y hy hxy
    have hx0 := (hmemb x hx).1
    have hy0 := (hmemb y hy).1
    omega
  have hlt : ∀ n ∈ ln, n < questions.length := by
    intro n hn
    obtain ⟨x, hx, rfl⟩ := List.mem_map.mp hn
    have := hmemb x hx
    omega
  have hcard : ln.length ≤ questions.length := by
    have hsubF : ln.toFinset ⊆ Finset.range questions.length := by
      intro n hn
      rw [Finset.mem_range]
      exact hlt n (List.mem_toFinset.mp hn)
    calc ln.length = ln.toFinset.card := (List.toFinset_card_of_nodup hndn).symm
      _ ≤ (Finset.range questions.length).card := Finset.card_le_card hsubF
      _ = questions.length := Finset.card_range _
  have hl1 : ln.length = li.length := by simp [hln]
  have hl2 : li.length = flt.length := by simp [hli]
  omega

/-- C5 counterexample: an accepted submission repeating the same question index is
persisted with score 200, outside the claimed range 0 to 100. -/
theorem C5_counterexample :
    (submit_assignment [exQuestion] [exAnswer 0 [1], exAnswer 0 [1]]).map (fun r => r.1) =
      Except.ok 200 := by
  decide

/-- C5 amended: when the submitted answers carry pairwise distinct nonnegative
question indices, the persisted score is at most 100 (and it is a natural
number, hence at least 0); repeated or negative indices can push the correct
count past the question count and the score past 100. -/
theorem C5_score_range (questions : List AssignmentQuestion)
    (answers : List AnswerSubmission)
    (hnodup : (answers.map (fun a => a.questionIndex)).Nodup)
    (hpos : ∀ a ∈ answers, 0 ≤ a.questionIndex)
    (res : ℕ × ℕ × ℕ × List QuestionResult)
    (h : submit_assignment questions answers = Except.ok res) :
    res.1 ≤ 100 := by
  rw [submit_assignment] at h
  cases hev : evalAnswers questions answers with
  | error e =>
    rw [hev] at h
    exact absurd h (by simp)
  | ok p =>
    obtain ⟨cc, qrs⟩ := p
    rw [hev] at h
    simp only [Except.ok.injEq] at h
    rw [← h]
    exact pythonScore_le_100 cc questions.length
      (correct_count_le_total questions answers hnodup hpos cc qrs hev)

/-- C5 witness: the amended statement at a one-question, one-answer submission. -/
theorem C5_score_range_witness :
    (([exAnswer 0 [1]].map (fun a => a.questionIndex)).Nodup) ∧
    (∀ a ∈ [exAnswer 0 [1]], 0 ≤ a.questionIndex) ∧
    submit_assignment [exQuestion] [exAnswer 0 [1]] =
      Except.ok (100, 1, 1, [⟨0, true, [1], [1], none⟩]) ∧
    ((100, 1, 1, [(⟨0, true, [1], [1], none⟩ : QuestionResult)]) :
      ℕ × ℕ × ℕ × List QuestionResult).1 ≤ 100 :=
  ⟨by decide, by decide, by decide,
    C5_score_range [exQuestion] [exAnswer 0 [1]] (by decide) (by decide) _ (by decide)⟩

end OrbitSkill
